import Mathlib

/- A formal model of the DobsonianDSC firmware core (DobsonianDSC.ino): the
BBox-style command dispatcher processBBoxCommand, the TCP and Bluetooth
request framing from attendTcpRequests and attendBTRequests, the TCP accept
phase over the fixed slot table, and the reset branch of the main loop.
C strings are modelled as Lean strings (the terminating NUL is implicit),
C integer values as Int, and the bounded snprintf writes through an explicit
truncation function. -/

namespace DSC

def MAX_SRV_CLIENTS : Nat := 3

def MAX_REQUEST_LENGTH : Nat := 30

def RESTART_HOLD_TIME : Nat := 3000

/- Decimal formatting, modelling the C library itoa at radix 10 and the
printf conversions used by the firmware. -/

def digitVal (c : Char) : Nat := c.toNat - 48

def accDigit (a : Nat) (c : Char) : Nat := a * 10 + digitVal c

def isDigitC (c : Char) : Bool := decide (48 ≤ c.toNat ∧ c.toNat ≤ 57)

def isSpaceC (c : Char) : Bool :=
  decide (c.toNat = 32 ∨ c.toNat = 9 ∨ c.toNat = 10 ∨ c.toNat = 13 ∨ c.toNat = 11 ∨ c.toNat = 12)

def digitChar : Nat → Char
  | 0 => '0'
  | 1 => '1'
  | 2 => '2'
  | 3 => '3'
  | 4 => '4'
  | 5 => '5'
  | 6 => '6'
  | 7 => '7'
  | 8 => '8'
  | _ => '9'

def natToDigitsAux : Nat → Nat → List Char → List Char
  | 0, _, acc => acc
  | fuel + 1, n, acc =>
    if n < 10 then digitChar n :: acc
    else natToDigitsAux fuel (n / 10) (digitChar (n % 10) :: acc)

def natToDigits (n : Nat) : List Char := natToDigitsAux (n + 1) n []

def decRepr (i : Int) : String :=
  if i < 0 then String.mk ('-' :: natToDigits (-i).toNat) else String.mk (natToDigits i.toNat)

/- Parsing, modelling the C library sscanf with format "%d,%d" and atoi:
a %d conversion skips whitespace, accepts an optional sign and a maximal
run of digits, and a literal comma in the format must match the next input
character exactly; input after the last conversion is ignored. -/

def parseDigits : Nat → List Char → Nat × List Char
  | acc, [] => (acc, [])
  | acc, c :: cs => if isDigitC c then parseDigits (accDigit acc c) cs else (acc, c :: cs)

def parseUnsigned : List Char → Option (Nat × List Char)
  | [] => none
  | c :: cs => if isDigitC c then some (parseDigits 0 (c :: cs)) else none

def parseSigned (l : List Char) : Option (Int × List Char) :=
  match l with
  | [] => none
  | c :: cs =>
    if c = '-' then (parseUnsigned cs).map fun p => (-(p.1 : Int), p.2)
    else if c = '+' then (parseUnsigned cs).map fun p => ((p.1 : Int), p.2)
    else (parseUnsigned (c :: cs)).map fun p => ((p.1 : Int), p.2)

def skipSpaces : List Char → List Char
  | [] => []
  | c :: cs => if isSpaceC c then skipSpaces cs else c :: cs

def sscanfDD (s : String) : Option (Int × Int) :=
  match parseSigned (skipSpaces s.data) with
  | none => none
  | some (a, rest) =>
    match rest with
    | [] => none
    | c :: rest2 =>
      if c = ',' then
        match parseSigned (skipSpaces rest2) with
        | none => none
        | some (b, _) => some (a, b)
      else none

def atoi (s : String) : Int :=
  match parseSigned (skipSpaces s.data) with
  | none => 0
  | some (v, _) => v

/- The Configuration Store interface. -/

structure Config where
  value : String → String

def setValue (conf : Config) (key v : String) : Config :=
  ⟨fun k => if k = key then v else conf.value k⟩

def getValue (conf : Config) (key : String) : String := conf.value key

/-- Modelled from the spec: the Configuration Store is the external WebConfig
key-value library, which is not part of src; per the spec it stores settings
as decimal strings and getInt parses a stored string back to an integer with
C atoi semantics. -/
def getInt (conf : Config) (key : String) : Int := atoi (conf.value key)

/-- Names of the configuration entries, in declaration order, taken from the
params description string in DobsonianDSC.ino. -/
def configKeys : List String :=
  ["ssid", "pwd", "btname", "azsteps", "azstart", "alsteps", "alstart",
   "flpaz", "flpalt", "apikey", "userkey"]

/-- Default configuration values from the params description string. -/
def initialConf : Config :=
  ⟨fun k =>
    if k = "btname" then "Telescope"
    else if k = "azsteps" then "1800"
    else if k = "azstart" then "0"
    else if k = "alsteps" then "22140"
    else if k = "alstart" then "5624"
    else if k = "flpaz" then "1"
    else if k = "flpalt" then "1"
    else ""⟩

/- The mutable firmware state visible to the dispatcher: the two hardware
encoder counters and the configuration store. -/

structure DSCState where
  azCount : Int
  altCount : Int
  conf : Config

/-- State after setupEncoders with the default configuration: the azimuth
counter is set to azstart and the altitude counter to alstart. -/
def initialState : DSCState :=
  { azCount := 0, altCount := 5624, conf := initialConf }

/-- Model of snprintf with buffer size 20: at most 19 characters are kept and
the output is NUL-terminated (the NUL is implicit in the String model). -/
def snprintf20 (s : String) : String := String.mk (s.data.take 19)

/-- Text composed by the Q branch: sprintf with two lld conversions. -/
def fmtQ (st : DSCState) : String :=
  decRepr st.azCount ++ "\t" ++ decRepr st.altCount ++ "\t\n"

/-- Text the G branch formats before truncation by snprintf. -/
def fmtG (conf : Config) : String :=
  decRepr (getInt conf "azsteps") ++ "-" ++ decRepr (getInt conf "alsteps") ++ "\n"

/-- Text the H branch formats before truncation by snprintf. -/
def fmtH (conf : Config) : String :=
  decRepr (getInt conf "azsteps") ++ "\t" ++ decRepr (getInt conf "alsteps") ++ "\t\n"

/-- The command dispatcher processBBoxCommand.  The second component is the
text written into the response buffer of the caller, or none when the buffer is
left untouched (the S branch with an unparseable details string). -/
def processBBoxCommand (command : Char) (details : String) (st : DSCState) :
    DSCState × Option String :=
  if command = 'Q' then (st, some (fmtQ st))
  else if command = 'G' then (st, some (snprintf20 (fmtG st.conf)))
  else if command = 'H' then (st, some (snprintf20 (fmtH st.conf)))
  else if command = 'Z' then ({ st with azCount := 0, altCount := 0 }, some "OK\n")
  else if command = 'S' then
    match sscanfDD details with
    | some (azRes, altRes) =>
      ({ st with
           conf := setValue (setValue st.conf "azsteps" (decRepr azRes)) "alsteps" (decRepr altRes) },
       some "OK\n")
    | none => (st, none)
  else (st, some "\n")

/-- Content of the response buffer of the caller after a dispatch, given its prior
content. -/
def writeResponse (w : Option String) (prior : String) : String := w.getD prior

/- Request framing.  A read event is modelled by the list of bytes buffered
on the transport when the poll runs; the result is the command byte, the
details bytes handed to the dispatcher, and the bytes still buffered after
the poll (the flush loops always leave nothing behind). -/

/-- TCP service-phase framing from attendTcpRequests: one command byte, then
a single conditional read of one details byte (the detail-read in the TCP
path is an if statement, not a loop), then the flush loop drains the rest. -/
def tcpReadRequest : List Char → Option (Char × List Char × List Char)
  | [] => none
  | c :: rest => some (c, rest.take 1, [])

/-- Modelled from the spec: the service phase it describes reads up to
MAX_REQUEST_LENGTH further buffered bytes into the details string, stopping
early only when input is exhausted.  Stated separately so the spec text can
be compared with the TCP code path above. -/
def tcpReadRequestSpec : List Char → Option (Char × List Char × List Char)
  | [] => none
  | c :: rest => some (c, rest.take MAX_REQUEST_LENGTH, [])

/-- Bluetooth framing from attendBTRequests: one command byte, a while loop
reading up to MAX_REQUEST_LENGTH details bytes, then the flush loop. -/
def btReadRequest : List Char → Option (Char × List Char × List Char)
  | [] => none
  | c :: rest => some (c, rest.take MAX_REQUEST_LENGTH, [])

/- Transport output. -/

inductive OutMsg where
  | configEntry (name value : String)
  | response (text : String)
deriving DecidableEq

/-- Model of printConfig: every configuration entry is written to the
Bluetooth channel as a name and value pair. -/
def printConfig (conf : Config) : List OutMsg :=
  configKeys.map fun k => OutMsg.configEntry k (conf.value k)

/-- One poll of attendBTRequests, given the buffered input bytes; returns the
new state and the messages sent to the Bluetooth client, in order.  With
command byte the question mark, printConfig runs after the dispatcher and
before the response line (DEBUG_PROTOCOL is defined in the source). -/
def attendBTRequest (input : List Char) (st : DSCState) (prior : String) :
    DSCState × List OutMsg :=
  match btReadRequest input with
  | none => (st, [])
  | some (c, d, _) =>
    let r := processBBoxCommand c (String.mk d) st
    let dump := if c = '?' then printConfig r.1.conf else []
    (r.1, dump ++ [OutMsg.response (writeResponse r.2 prior)])

/-- Service of one connected TCP client in attendTcpRequests, given the
buffered input bytes: only the dispatcher response line is ever sent. -/
def attendTcpClient (input : List Char) (st : DSCState) (prior : String) :
    DSCState × List OutMsg :=
  match tcpReadRequest input with
  | none => (st, [])
  | some (c, d, _) =>
    let r := processBBoxCommand c (String.mk d) st
    (r.1, [OutMsg.response (writeResponse r.2 prior)])

/- The TCP accept phase over the slot table serverClients. -/

structure Slot where
  present : Bool
  connected : Bool
deriving DecidableEq

def slotFree (s : Slot) : Bool := !s.present || !s.connected

/-- Index of the first free or disconnected slot, scanning upward, as the
accept-phase for loop does. -/
def findFreeSlot : List Slot → Option Nat
  | [] => none
  | s :: rest => if slotFree s then some 0 else (findFreeSlot rest).map (· + 1)

inductive AcceptAction where
  | idle
  | accepted (slot : Nat)
  | rejected
deriving DecidableEq

/-- Accept phase of attendTcpRequests: with a pending connection, claim the
first free or disconnected slot; when every slot is taken, the pending
connection is accepted and immediately stopped (the rejected action). -/
def acceptPhase (slots : List Slot) (hasClient : Bool) : List Slot × AcceptAction :=
  if hasClient then
    match findFreeSlot slots with
    | some i => (slots.set i ⟨true, true⟩, AcceptAction.accepted i)
    | none => (slots, AcceptAction.rejected)
  else (slots, AcceptAction.idle)

/- The reset branch at the top of loop. -/

structure ResetOutcome where
  countersCleared : Bool
  waitMs : Nat
  restarted : Bool
deriving DecidableEq

/-- Reset branch of loop, as a function of the two samples of PIN_RESET: on
an asserted first sample both counters are cleared at once, the loop blocks
for the beep (300 ms) plus a further 2000 ms, samples the pin again, and
restarts exactly when the second sample is still asserted. -/
def loopResetPhase (firstRead secondRead : Bool) (st : DSCState) : DSCState × ResetOutcome :=
  if firstRead then
    ({ st with azCount := 0, altCount := 0 },
     { countersCleared := true, waitMs := 300 + 2000, restarted := secondRead })
  else (st, { countersCleared := false, waitMs := 0, restarted := false })

/- Shape predicate for the S command argument as the spec words it. -/

def intLitShape (l : List Char) : Bool :=
  match l with
  | [] => false
  | '-' :: rest => !rest.isEmpty && rest.all isDigitC
  | _ => l.all isDigitC

/-- Modelled from the spec: the claimed exact shape of the S command details,
two decimal integers separated by a single comma and spanning the whole
string with no further characters. -/
def exactPairShape (s : String) : Bool :=
  match s.data.splitOn ',' with
  | [a, b] => intLitShape a && intLitShape b
  | _ => false

/-- Lists on which parseDigits stops at once: the empty list and any list
whose head is not a digit. -/
def stopsParse (r : List Char) : Prop := ∀ a : Nat, parseDigits a r = (a, r)

/- Properties of the decimal formatting and parsing model. -/

theorem isDigitC_digitChar (d : Nat) : isDigitC (digitChar d) = true := by
  rcases d with _ | _ | _ | _ | _ | _ | _ | _ | _ | d <;> rfl

theorem digitVal_digitChar (d : Nat) (h : d < 10) : digitVal (digitChar d) = d := by
  rcases d with _ | _ | _ | _ | _ | _ | _ | _ | _ | d
  · rfl
  · rfl
  · rfl
  · rfl
  · rfl
  · rfl
  · rfl
  · rfl
  · rfl
  · have hd : d = 0 := by omega
    subst hd
    rfl

theorem digit_not_space {c : Char} (h : isDigitC c = true) : isSpaceC c = false := by
  simp only [isDigitC, decide_eq_true_eq] at h
  simp only [isSpaceC, decide_eq_false_iff_not]
  omega

theorem digit_ne_minus {c : Char} (h : isDigitC c = true) : c ≠ '-' := by
  intro he
  subst he
  exact absurd h (by decide)

theorem digit_ne_plus {c : Char} (h : isDigitC c = true) : c ≠ '+' := by
  intro he
  subst he
  exact absurd h (by decide)

theorem natToDigitsAux_acc_ne_nil : ∀ (fuel n : Nat) (acc : List Char), acc ≠ [] →
    natToDigitsAux fuel n acc ≠ [] := by
  intro fuel
  induction fuel with
  | zero => intro n acc h; simpa [natToDigitsAux] using h
  | succ f ih =>
    intro n acc h
    simp only [natToDigitsAux]
    split
    · simp
    · exact ih _ _ (by simp)

theorem natToDigits_ne_nil (n : Nat) : natToDigits n ≠ [] := by
  unfold natToDigits
  simp only [natToDigitsAux]
  split
  · simp
  · exact natToDigitsAux_acc_ne_nil _ _ _ (by simp)

theorem natToDigitsAux_all_digit : ∀ (fuel n : Nat) (acc : List Char),
    (∀ c ∈ acc, isDigitC c = true) → ∀ c ∈ natToDigitsAux fuel n acc, isDigitC c = true := by
  intro fuel
  induction fuel with
  | zero => intro n acc hacc; simpa [natToDigitsAux] using hacc
  | succ f ih =>
    intro n acc hacc c hc
    simp only [natToDigitsAux] at hc
    split at hc
    · rcases List.mem_cons.mp hc with h | h
      · subst h; exact isDigitC_digitChar _
      · exact hacc _ h
    · refine ih _ _ ?_ _ hc
      intro x hx
      rcases List.mem_cons.mp hx with h | h
      · subst h; exact isDigitC_digitChar _
      · exact hacc _ h

theorem natToDigits_all_digit (n : Nat) : ∀ c ∈ natToDigits n, isDigitC c = true :=
  natToDigitsAux_all_digit _ _ _ (by simp)

theorem natToDigitsAux_append : ∀ (fuel n : Nat) (acc : List Char),
    natToDigitsAux fuel n acc = natToDigitsAux fuel n [] ++ acc := by
  intro fuel
  induction fuel with
  | zero => intro n acc; simp [natToDigitsAux]
  | succ f ih =>
    intro n acc
    simp only [natToDigitsAux]
    split
    · simp
    · rw [ih (n / 10) (digitChar (n % 10) :: acc), ih (n / 10) [digitChar (n % 10)]]
      simp

theorem natToDigitsAux_foldl : ∀ (fuel n : Nat), n < fuel → ∀ a : Nat,
    (natToDigitsAux fuel n []).foldl accDigit a
      = a * 10 ^ (natToDigitsAux fuel n []).length + n := by
  intro fuel
  induction fuel with
  | zero => intro n h; exact absurd h (Nat.not_lt_zero n)
  | succ f ih =>
    intro n hn a
    by_cases h10 : n < 10
    · simp only [natToDigitsAux, if_pos h10, List.foldl_cons, List.foldl_nil,
        List.length_cons, List.length_nil, accDigit, digitVal_digitChar n h10]
      ring
    · simp only [natToDigitsAux, if_neg h10]
      rw [natToDigitsAux_append]
      have hlt : n / 10 < f := by omega
      rw [List.foldl_append, List.length_append, ih (n / 10) hlt a]
      simp only [List.foldl_cons, List.foldl_nil, List.length_cons, List.length_nil,
        accDigit, digitVal_digitChar (n % 10) (by omega)]
      rw [pow_succ, ← mul_assoc]
      have hmod := Nat.div_add_mod n 10
      generalize a * 10 ^ (natToDigitsAux f (n / 10) []).length = Y
      omega

theorem natToDigits_foldl (n a : Nat) :
    (natToDigits n).foldl accDigit a = a * 10 ^ (natToDigits n).length + n :=
  natToDigitsAux_foldl (n + 1) n (Nat.lt_succ_self n) a

theorem natToDigits_head_digit (n : Nat) :
    ∃ c cs, natToDigits n = c :: cs ∧ isDigitC c = true := by
  cases h : natToDigits n with
  | nil => exact absurd h (natToDigits_ne_nil n)
  | cons c cs =>
    refine ⟨c, cs, rfl, natToDigits_all_digit n c ?_⟩
    rw [h]
    simp

theorem stopsParse_nil : stopsParse [] := fun _ => rfl

theorem stopsParse_cons {c : Char} (h : isDigitC c = false) (cs : List Char) :
    stopsParse (c :: cs) := by
  intro a
  simp [parseDigits, h]

theorem parseDigits_append_digits : ∀ (l : List Char), (∀ c ∈ l, isDigitC c = true) →
    ∀ (a : Nat) (r : List Char), parseDigits a (l ++ r) = parseDigits (l.foldl accDigit a) r := by
  intro l
  induction l with
  | nil => intro _ a r; simp
  | cons c cs ih =>
    intro h a r
    have hc : isDigitC c = true := h c (by simp)
    simp only [List.cons_append, parseDigits, if_pos hc, List.foldl_cons]
    exact ih (fun x hx => h x (by simp [hx])) _ r

theorem parseDigits_natToDigits (n : Nat) {r : List Char} (hr : stopsParse r) :
    parseDigits 0 (natToDigits n ++ r) = (n, r) := by
  rw [parseDigits_append_digits _ (natToDigits_all_digit n), natToDigits_foldl]
  simpa using hr n

theorem parseUnsigned_natToDigits (n : Nat) {r : List Char} (hr : stopsParse r) :
    parseUnsigned (natToDigits n ++ r) = some (n, r) := by
  obtain ⟨c, cs, hl, hc⟩ := natToDigits_head_digit n
  rw [hl, List.cons_append]
  simp only [parseUnsigned, if_pos hc]
  rw [← List.cons_append, ← hl, parseDigits_natToDigits n hr]

theorem parseSigned_natToDigits (n : Nat) {r : List Char} (hr : stopsParse r) :
    parseSigned (natToDigits n ++ r) = some ((n : Int), r) := by
  obtain ⟨c, cs, hl, hc⟩ := natToDigits_head_digit n
  rw [hl, List.cons_append]
  simp only [parseSigned, if_neg (digit_ne_minus hc), if_neg (digit_ne_plus hc)]
  rw [← List.cons_append, ← hl, parseUnsigned_natToDigits n hr]
  rfl

theorem parseSigned_neg_natToDigits (n : Nat) {r : List Char} (hr : stopsParse r) :
    parseSigned ('-' :: (natToDigits n ++ r)) = some (-(n : Int), r) := by
  simp only [parseSigned, if_pos rfl]
  rw [parseUnsigned_natToDigits n hr]
  rfl

theorem skipSpaces_not_space {c : Char} (h : isSpaceC c = false) (cs : List Char) :
    skipSpaces (c :: cs) = c :: cs := by
  simp [skipSpaces, h]

theorem skipSpaces_natToDigits (n : Nat) (r : List Char) :
    skipSpaces (natToDigits n ++ r) = natToDigits n ++ r := by
  obtain ⟨c, cs, hl, hc⟩ := natToDigits_head_digit n
  rw [hl, List.cons_append]
  exact skipSpaces_not_space (digit_not_space hc) _

theorem atoi_decRepr (i : Int) : atoi (decRepr i) = i := by
  by_cases hi : i < 0
  · have hd : decRepr i = String.mk ('-' :: natToDigits (-i).toNat) := by
      rw [decRepr, if_pos hi]
    rw [hd]
    simp only [atoi]
    rw [skipSpaces_not_space (by decide) _]
    rw [show natToDigits (-i).toNat = natToDigits (-i).toNat ++ [] from (List.append_nil _).symm]
    rw [parseSigned_neg_natToDigits _ stopsParse_nil]
    simp [Int.toNat_of_nonneg (by omega : (0 : Int) ≤ -i)]
  · have hd : decRepr i = String.mk (natToDigits i.toNat) := by
      rw [decRepr, if_neg hi]
    rw [hd]
    simp only [atoi]
    rw [show natToDigits i.toNat = natToDigits i.toNat ++ [] from (List.append_nil _).symm]
    rw [skipSpaces_natToDigits, parseSigned_natToDigits _ stopsParse_nil]
    simp [Int.toNat_of_nonneg (by omega : (0 : Int) ≤ i)]

theorem sscanfDD_pair (a b : Int) (ha : 0 ≤ a) (hb : 0 ≤ b) :
    sscanfDD (decRepr a ++ "," ++ decRepr b) = some (a, b) := by
  have hda : decRepr a = String.mk (natToDigits a.toNat) := by
    rw [decRepr, if_neg (by omega)]
  have hdb : decRepr b = String.mk (natToDigits b.toNat) := by
    rw [decRepr, if_neg (by omega)]
  rw [hda, hdb]
  simp only [sscanfDD, String.data_append]
  rw [List.append_assoc, List.singleton_append]
  rw [skipSpaces_natToDigits,
      parseSigned_natToDigits _ (stopsParse_cons (by decide) _)]
  simp only [if_pos rfl]
  rw [show natToDigits b.toNat = natToDigits b.toNat ++ [] from (List.append_nil _).symm]
  rw [skipSpaces_natToDigits, parseSigned_natToDigits _ stopsParse_nil]
  simp [Int.toNat_of_nonneg ha, Int.toNat_of_nonneg hb]

/- Properties of the configuration store model and the dispatcher. -/

theorem getValue_setValue_eq (conf : Config) (k v : String) : (setValue conf k v).value k = v := by
  simp [setValue]

theorem getValue_setValue_ne (conf : Config) {k key : String} (h : k ≠ key) (v : String) :
    (setValue conf key v).value k = conf.value k := by
  simp [setValue, h]

theorem snprintf20_length (s : String) : (snprintf20 s).length ≤ 19 := by
  simp only [snprintf20, String.length_mk, List.length_take]
  omega

theorem snprintf20_of_le {s : String} (h : s.length ≤ 19) : snprintf20 s = s := by
  rw [snprintf20, List.take_of_length_le h]

theorem processBBoxCommand_Q (details : String) (st : DSCState) :
    processBBoxCommand 'Q' details st = (st, some (fmtQ st)) := rfl

theorem processBBoxCommand_G (details : String) (st : DSCState) :
    processBBoxCommand 'G' details st = (st, some (snprintf20 (fmtG st.conf))) := rfl

theorem processBBoxCommand_H (details : String) (st : DSCState) :
    processBBoxCommand 'H' details st = (st, some (snprintf20 (fmtH st.conf))) := rfl

theorem processBBoxCommand_Z (details : String) (st : DSCState) :
    processBBoxCommand 'Z' details st
      = ({ st with azCount := 0, altCount := 0 }, some "OK\n") := rfl

theorem processBBoxCommand_S_some {details : String} {a b : Int}
    (h : sscanfDD details = some (a, b)) (st : DSCState) :
    processBBoxCommand 'S' details st
      = ({ st with
             conf := setValue (setValue st.conf "azsteps" (decRepr a)) "alsteps" (decRepr b) },
         some "OK\n") := by
  unfold processBBoxCommand
  rw [if_neg (by decide), if_neg (by decide), if_neg (by decide), if_neg (by decide),
      if_pos rfl, h]

theorem processBBoxCommand_S_none {details : String}
    (h : sscanfDD details = none) (st : DSCState) :
    processBBoxCommand 'S' details st = (st, none) := by
  unfold processBBoxCommand
  rw [if_neg (by decide), if_neg (by decide), if_neg (by decide), if_neg (by decide),
      if_pos rfl, h]

theorem processBBoxCommand_default {c : Char} (hq : c ≠ 'Q') (hg : c ≠ 'G') (hh : c ≠ 'H')
    (hz : c ≠ 'Z') (hs : c ≠ 'S') (details : String) (st : DSCState) :
    processBBoxCommand c details st = (st, some "\n") := by
  unfold processBBoxCommand
  rw [if_neg hq, if_neg hg, if_neg hh, if_neg hz, if_neg hs]

theorem fmtH_after_set (conf : Config) (a b : Int) :
    fmtH (setValue (setValue conf "azsteps" (decRepr a)) "alsteps" (decRepr b))
      = decRepr a ++ "\t" ++ decRepr b ++ "\t\n" := by
  unfold fmtH getInt
  rw [getValue_setValue_ne _ (by decide), getValue_setValue_eq, getValue_setValue_eq,
      atoi_decRepr, atoi_decRepr]

theorem findFreeSlot_none {slots : List Slot}
    (hfull : ∀ s ∈ slots, s.present = true ∧ s.connected = true) :
    findFreeSlot slots = none := by
  induction slots with
  | nil => rfl
  | cons s rest ih =>
    have hs := hfull s (by simp)
    have hf : slotFree s = false := by simp [slotFree, hs.1, hs.2]
    simp only [findFreeSlot, hf, Bool.false_eq_true, if_false]
    rw [ih (fun x hx => hfull x (by simp [hx]))]
    rfl

/- Claims. -/

/-- C1: the claim states that the TCP service phase reads up to
MAX_REQUEST_LENGTH buffered bytes into the details string, so that a
multi-byte argument such as the S command pair arrives at the dispatcher in
full.  The TCP code path reads the detail bytes with an if statement instead
of a while loop (the Bluetooth path uses a loop), so at most one details byte
is ever kept: on the buffered input "S1800,22140" the code hands the
dispatcher the details "1", not "1800,22140" as the spec describes. -/
theorem tcp_read_drops_detail_bytes :
    tcpReadRequest ("S1800,22140".data) = some ('S', "1".data, []) ∧
    tcpReadRequestSpec ("S1800,22140".data) = some ('S', "1800,22140".data, []) ∧
    ("1".data : List Char) ≠ "1800,22140".data := by
  exact ⟨by decide, by decide, by decide⟩

/-- C5 counterexample: the reset branch waits 300 plus 2000 milliseconds
before sampling the pin again; the RESTART_HOLD_TIME constant (3000 ms) is
declared but the wait is 2300 ms, not RESTART_HOLD_TIME. -/
theorem reset_wait_cex :
    (loopResetPhase true true initialState).2.waitMs = 2300 ∧
    RESTART_HOLD_TIME = 3000 ∧
    (loopResetPhase true true initialState).2.waitMs ≠ RESTART_HOLD_TIME := by
  exact ⟨rfl, rfl, by decide⟩

/-- C5 (amended): on every loop iteration whose first reset-pin sample is
asserted, both position counters are cleared immediately, the loop waits
2300 ms (a 300 ms beep plus a 2000 ms delay, not RESTART_HOLD_TIME = 3000 ms)
and samples the pin again, and restarts exactly when the second sample is
still asserted. -/
theorem reset_clears_then_restarts (firstRead secondRead : Bool) (st : DSCState)
    (h : firstRead = true) :
    (loopResetPhase firstRead secondRead st).1.azCount = 0 ∧
    (loopResetPhase firstRead secondRead st).1.altCount = 0 ∧
    (loopResetPhase firstRead secondRead st).2.countersCleared = true ∧
    (loopResetPhase firstRead secondRead st).2.waitMs = 2300 ∧
    ((loopResetPhase firstRead secondRead st).2.restarted = true ↔ secondRead = true) := by
  subst h
  simp [loopResetPhase]

/-- Witness for reset_clears_then_restarts: a press that is released before
the second sample clears the counters but does not restart. -/
theorem reset_clears_then_restarts_w :
    (loopResetPhase true false initialState).1.azCount = 0 ∧
    (loopResetPhase true false initialState).1.altCount = 0 ∧
    (loopResetPhase true false initialState).2.countersCleared = true ∧
    (loopResetPhase true false initialState).2.waitMs = 2300 ∧
    ((loopResetPhase true false initialState).2.restarted = true ↔ false = true) :=
  reset_clears_then_restarts true false initialState rfl

/-- C6: when every slot holds a connected session and a connection is
pending, the accept phase accepts and immediately stops the pending
connection (the rejected action), leaves the slot table unchanged, and every
existing session is still present and connected for later service phases. -/
theorem accept_rejects_when_full (slots : List Slot)
    (_hlen : slots.length = MAX_SRV_CLIENTS)
    (hfull : ∀ s ∈ slots, s.present = true ∧ s.connected = true) :
    acceptPhase slots true = (slots, AcceptAction.rejected) ∧
    ∀ s ∈ (acceptPhase slots true).1, s.present = true ∧ s.connected = true := by
  have hnone := findFreeSlot_none hfull
  have hacc : acceptPhase slots true = (slots, AcceptAction.rejected) := by
    simp [acceptPhase, hnone]
  exact ⟨hacc, fun s hs => hfull s (by rw [hacc] at hs; exact hs)⟩

/-- Witness for accept_rejects_when_full with three connected sessions. -/
theorem accept_rejects_when_full_w :
    acceptPhase [⟨true, true⟩, ⟨true, true⟩, ⟨true, true⟩] true
        = ([⟨true, true⟩, ⟨true, true⟩, ⟨true, true⟩], AcceptAction.rejected) ∧
    ∀ s ∈ (acceptPhase [⟨true, true⟩, ⟨true, true⟩, ⟨true, true⟩] true).1,
      s.present = true ∧ s.connected = true :=
  accept_rejects_when_full _ (by decide) (by decide)

/-- C7: any framed request, on either transport, hands the dispatcher at most
MAX_REQUEST_LENGTH details bytes, and the flush loop leaves nothing buffered,
so overflow bytes are discarded within the same poll and cannot reach a later
request. -/
theorem request_details_capped (input : List Char) (c : Char) (d rest : List Char)
    (h : tcpReadRequest input = some (c, d, rest) ∨ btReadRequest input = some (c, d, rest)) :
    d.length ≤ MAX_REQUEST_LENGTH ∧ rest = [] := by
  cases input with
  | nil => rcases h with h | h <;> simp [tcpReadRequest, btReadRequest] at h
  | cons x xs =>
    rcases h with h | h
    · simp only [tcpReadRequest, Option.some.injEq, Prod.mk.injEq] at h
      obtain ⟨-, hd, hr⟩ := h
      subst hd
      subst hr
      refine ⟨?_, rfl⟩
      simp only [List.length_take, MAX_REQUEST_LENGTH]
      omega
    · simp only [btReadRequest, Option.some.injEq, Prod.mk.injEq] at h
      obtain ⟨-, hd, hr⟩ := h
      subst hd
      subst hr
      refine ⟨?_, rfl⟩
      simp only [List.length_take, MAX_REQUEST_LENGTH]
      omega

/-- Witness for request_details_capped: a Bluetooth read buffer with 36
detail bytes is capped at 30 and fully drained. -/
theorem request_details_capped_w :
    ("abcdefghijklmnopqrstuvwxyz0123".data).length ≤ MAX_REQUEST_LENGTH ∧
    ([] : List Char) = [] :=
  request_details_capped ("Sabcdefghijklmnopqrstuvwxyz0123456789".data) 'S'
    ("abcdefghijklmnopqrstuvwxyz0123".data) [] (Or.inr (by decide))

/-- C8: dispatching Z clears both counters and answers OK; a Q dispatched on
the resulting state, with no intervening hardware ticks, answers the zero
pair, whatever the counters held before. -/
theorem z_then_q_reads_zero (st : DSCState) (details details2 : String) :
    (processBBoxCommand 'Z' details st).2 = some "OK\n" ∧
    processBBoxCommand 'Q' details2 (processBBoxCommand 'Z' details st).1
      = ((processBBoxCommand 'Z' details st).1, some "0\t0\t\n") :=
  ⟨rfl, rfl⟩

/-- C9: on the Bluetooth channel a question-mark command makes the adapter
send every configuration entry, name and stored value, in declaration order,
including the ssid and pwd entries, before the dispatcher response line; the
TCP service path never emits a configuration entry for any input. -/
theorem bt_question_mark_dumps_config (rest : List Char) (st : DSCState) (prior : String)
    (input2 : List Char) (st2 : DSCState) (prior2 : String) :
    (attendBTRequest ('?' :: rest) st prior).2
        = printConfig st.conf ++ [OutMsg.response "\n"] ∧
    OutMsg.configEntry "ssid" (st.conf.value "ssid") ∈ printConfig st.conf ∧
    OutMsg.configEntry "pwd" (st.conf.value "pwd") ∈ printConfig st.conf ∧
    ∀ m ∈ (attendTcpClient input2 st2 prior2).2, ∀ n v, m ≠ OutMsg.configEntry n v := by
  refine ⟨rfl, ?_, ?_, ?_⟩
  · simp [printConfig, configKeys]
  · simp [printConfig, configKeys]
  · intro m hm n v
    cases input2 with
    | nil => simp [attendTcpClient, tcpReadRequest] at hm
    | cons x xs =>
      simp only [attendTcpClient, tcpReadRequest, List.mem_singleton] at hm
      subst hm
      simp

/-- C2 counterexample: after setting nine-digit resolutions through S, the H
response is truncated by the 20-byte snprintf to 19 characters and is not the
claimed tab-terminated pair. -/
theorem h_truncation_cex :
    (processBBoxCommand 'S' "123456789,123456789" initialState).2 = some "OK\n" ∧
    (processBBoxCommand 'H' ""
        (processBBoxCommand 'S' "123456789,123456789" initialState).1).2
      = some "123456789\t123456789" ∧
    ("123456789\t123456789" : String) ≠ "123456789\t123456789\t\n" := by
  exact ⟨by decide, by decide, by decide⟩

/-- C2 (amended): for positive az and alt whose decimal representations total
at most 16 digits (so that the tab-separated H text fits the 20-byte
snprintf bound; in the C code both must also fit a 32-bit int), dispatching S
with details az,alt answers OK and a subsequent H answers exactly the
tab-separated pair; for longer pairs the H response is truncated to 19
characters (see the counterexample). -/
theorem s_then_h_roundtrip (az alt : Int) (ha : 0 < az) (hb : 0 < alt)
    (hlen : (decRepr az).length + (decRepr alt).length ≤ 16)
    (st : DSCState) (details2 : String) :
    (processBBoxCommand 'S' (decRepr az ++ "," ++ decRepr alt) st).2 = some "OK\n" ∧
    (processBBoxCommand 'H' details2
        (processBBoxCommand 'S' (decRepr az ++ "," ++ decRepr alt) st).1).2
      = some (decRepr az ++ "\t" ++ decRepr alt ++ "\t\n") := by
  have hp := sscanfDD_pair az alt (le_of_lt ha) (le_of_lt hb)
  have hS := processBBoxCommand_S_some hp st
  have hle : (decRepr az ++ "\t" ++ decRepr alt ++ "\t\n").length ≤ 19 := by
    simp only [String.length_append]
    have h1 : ("\t" : String).length = 1 := rfl
    have h2 : ("\t\n" : String).length = 2 := rfl
    omega
  constructor
  · rw [hS]
  · rw [hS]
    simp only [processBBoxCommand_H]
    rw [fmtH_after_set, snprintf20_of_le hle]

/-- Witness for s_then_h_roundtrip at the default resolutions 1800, 22140. -/
theorem s_then_h_roundtrip_w :
    (0 : Int) < 1800 ∧ (0 : Int) < 22140 ∧
    (decRepr 1800).length + (decRepr 22140).length ≤ 16 ∧
    ((processBBoxCommand 'S' (decRepr 1800 ++ "," ++ decRepr 22140) initialState).2
        = some "OK\n" ∧
     (processBBoxCommand 'H' ""
        (processBBoxCommand 'S' (decRepr 1800 ++ "," ++ decRepr 22140) initialState).1).2
        = some (decRepr 1800 ++ "\t" ++ decRepr 22140 ++ "\t\n")) :=
  ⟨by decide, by decide, by decide,
   s_then_h_roundtrip 1800 22140 (by decide) (by decide) (by decide) initialState ""⟩

/-- C3 counterexample: with both counters at the 64-bit minimum, a reachable
counter state, the Q response text is 43 characters, exceeding the 30-byte
response buffer. -/
theorem q_overflow_cex :
    (processBBoxCommand 'Q' ""
        { azCount := -9223372036854775808, altCount := -9223372036854775808,
          conf := initialConf }).2
      = some "-9223372036854775808\t-9223372036854775808\t\n" ∧
    ("-9223372036854775808\t-9223372036854775808\t\n" : String).length = 43 ∧
    ¬ (43 : Nat) ≤ 30 := by
  exact ⟨by decide, by decide, by decide⟩

/-- C3 (amended): every response the dispatcher writes for a command other
than Q is at most 30 bytes; the length of the Q response is exactly the sum
of the two decimal counter lengths plus three framing bytes, staying within
30 bytes only
when the two decimal representations total at most 27 characters and reaches
43 bytes at the 64-bit extremes (see the counterexample). -/
theorem response_length_bound (c : Char) (details : String) (st : DSCState) (r : String)
    (h : (processBBoxCommand c details st).2 = some r) :
    (c ≠ 'Q' → r.length ≤ 30) ∧
    (c = 'Q' → r.length = (decRepr st.azCount).length + (decRepr st.altCount).length + 3) := by
  have h1 : ("\t" : String).length = 1 := rfl
  have h2 : ("\t\n" : String).length = 2 := rfl
  by_cases hq : c = 'Q'
  · subst hq
    rw [processBBoxCommand_Q] at h
    simp only [Option.some.injEq] at h
    subst h
    refine ⟨fun hne => absurd rfl hne, fun _ => ?_⟩
    simp only [fmtQ, String.length_append]
    omega
  · refine ⟨fun _ => ?_, fun he => absurd he hq⟩
    by_cases hg : c = 'G'
    · subst hg
      rw [processBBoxCommand_G] at h
      simp only [Option.some.injEq] at h
      subst h
      have := snprintf20_length (fmtG st.conf)
      omega
    · by_cases hh : c = 'H'
      · subst hh
        rw [processBBoxCommand_H] at h
        simp only [Option.some.injEq] at h
        subst h
        have := snprintf20_length (fmtH st.conf)
        omega
      · by_cases hz : c = 'Z'
        · subst hz
          rw [processBBoxCommand_Z] at h
          simp only [Option.some.injEq] at h
          subst h
          decide
        · by_cases hs : c = 'S'
          · subst hs
            cases hp : sscanfDD details with
            | none =>
              rw [processBBoxCommand_S_none hp] at h
              simp at h
            | some p =>
              obtain ⟨a, b⟩ := p
              rw [processBBoxCommand_S_some hp] at h
              simp only [Option.some.injEq] at h
              subst h
              decide
          · rw [processBBoxCommand_default hq hg hh hz hs] at h
            simp only [Option.some.injEq] at h
            subst h
            decide

/-- Witness for response_length_bound at the Z command. -/
theorem response_length_bound_w :
    (processBBoxCommand 'Z' "" initialState).2 = some "OK\n" ∧
    (('Z' ≠ 'Q' → ("OK\n" : String).length ≤ 30) ∧
     ('Z' = 'Q' →
       ("OK\n" : String).length
         = (decRepr initialState.azCount).length + (decRepr initialState.altCount).length + 3)) :=
  ⟨by decide, response_length_bound 'Z' "" initialState "OK\n" (by decide)⟩

/-- C4 counterexample: the details "1,2x" are not two decimal integers
separated by a comma and nothing more, yet sscanf accepts the prefix, both
configuration values are written and OK is answered. -/
theorem s_trailing_junk_cex :
    exactPairShape "1,2x" = false ∧
    (processBBoxCommand 'S' "1,2x" initialState).2 = some "OK\n" ∧
    getInt (processBBoxCommand 'S' "1,2x" initialState).1.conf "azsteps" = 1 ∧
    getInt (processBBoxCommand 'S' "1,2x" initialState).1.conf "alsteps" = 2 ∧
    getInt initialState.conf "azsteps" = 1800 := by
  exact ⟨by decide, by decide, by decide, by decide, by decide⟩

/-- C4 (amended): the S branch is gated by sscanf with format d-comma-d: when
that parse fails the dispatcher changes no state and writes nothing, so the
response buffer keeps its prior content; when it succeeds (which tolerates
leading whitespace, signs and trailing junk, so slightly more than the exact
two-integer shape) both configuration values are written and OK is
answered. -/
theorem s_parse_gate (details : String) (st : DSCState) (prior : String) :
    (sscanfDD details = none →
      processBBoxCommand 'S' details st = (st, none) ∧
      writeResponse (processBBoxCommand 'S' details st).2 prior = prior) ∧
    ∀ a b : Int, sscanfDD details = some (a, b) →
      processBBoxCommand 'S' details st
        = ({ st with
               conf := setValue (setValue st.conf "azsteps" (decRepr a)) "alsteps" (decRepr b) },
           some "OK\n") := by
  constructor
  · intro h
    have hn := processBBoxCommand_S_none h st
    exact ⟨hn, by rw [hn]; rfl⟩
  · intro a b h
    exact processBBoxCommand_S_some h st

/-- Witness for s_parse_gate on an unparseable details string. -/
theorem s_parse_gate_w :
    sscanfDD "garbage" = none ∧
    (processBBoxCommand 'S' "garbage" initialState = (initialState, none) ∧
     writeResponse (processBBoxCommand 'S' "garbage" initialState).2 "OK\n" = "OK\n") :=
  ⟨by decide, (s_parse_gate "garbage" initialState "OK\n").1 (by decide)⟩

theorem decRepr_chars (i : Int) : ∀ c ∈ (decRepr i).data, isDigitC c = true ∨ c = '-' := by
  intro c hc
  by_cases hi : i < 0
  · rw [decRepr, if_pos hi] at hc
    rcases List.mem_cons.mp hc with h | h
    · exact Or.inr h
    · exact Or.inl (natToDigits_all_digit _ _ h)
  · rw [decRepr, if_neg hi] at hc
    exact Or.inl (natToDigits_all_digit _ _ hc)

theorem take_no_newline {pre : List Char} (hpre : '\n' ∉ pre) {k : Nat} (hk : k ≤ pre.length) :
    ((pre ++ ['\n']).take k).getLast? ≠ some '\n' := by
  rw [List.take_append_of_le_length hk]
  intro h
  exact hpre (List.take_subset k pre (List.mem_of_getLast?_eq_some h))

theorem fmtG_data (conf : Config) :
    (fmtG conf).data
      = ((decRepr (getInt conf "azsteps")).data
          ++ '-' :: (decRepr (getInt conf "alsteps")).data) ++ ['\n'] := by
  have h1 : ("-" : String).data = ['-'] := rfl
  have h2 : ("\n" : String).data = ['\n'] := rfl
  simp [fmtG, String.data_append, h1, h2]

theorem fmtH_data (conf : Config) :
    (fmtH conf).data
      = ((decRepr (getInt conf "azsteps")).data
          ++ '\t' :: ((decRepr (getInt conf "alsteps")).data ++ ['\t'])) ++ ['\n'] := by
  have h1 : ("\t" : String).data = ['\t'] := rfl
  have h2 : ("\t\n" : String).data = ['\t', '\n'] := rfl
  simp [fmtH, String.data_append, h1, h2]

theorem fmtG_prefix_no_newline (conf : Config) :
    '\n' ∉ (decRepr (getInt conf "azsteps")).data
        ++ '-' :: (decRepr (getInt conf "alsteps")).data := by
  intro h
  rcases List.mem_append.mp h with h | h
  · rcases decRepr_chars _ _ h with h | h <;> exact absurd h (by decide)
  · rcases List.mem_cons.mp h with h | h
    · exact absurd h (by decide)
    · rcases decRepr_chars _ _ h with h | h <;> exact absurd h (by decide)

theorem fmtH_prefix_no_newline (conf : Config) :
    '\n' ∉ (decRepr (getInt conf "azsteps")).data
        ++ '\t' :: ((decRepr (getInt conf "alsteps")).data ++ ['\t']) := by
  intro h
  rcases List.mem_append.mp h with h | h
  · rcases decRepr_chars _ _ h with h | h <;> exact absurd h (by decide)
  · rcases List.mem_cons.mp h with h | h
    · exact absurd h (by decide)
    · rcases List.mem_append.mp h with h | h
      · rcases decRepr_chars _ _ h with h | h <;> exact absurd h (by decide)
      · simp at h

theorem snprintf20_ne_of_long {s : String} (h : 19 < s.length) : snprintf20 s ≠ s := by
  intro he
  have hl := congrArg String.length he
  rw [snprintf20, String.length_mk, List.length_take] at hl
  have hd : s.length = s.data.length := rfl
  omega

/-- C10: the G and H responses are produced through snprintf with buffer size
20: at most 19 characters plus the implicit NUL are kept, and when the
formatted resolution text is longer than 19 characters the response is
truncated, in particular it no longer ends with a newline, so the trailing
newline or tab-newline terminator is lost. -/
theorem g_h_snprintf_bound (st : DSCState) (details details2 : String) :
    (processBBoxCommand 'G' details st).2 = some (snprintf20 (fmtG st.conf)) ∧
    (processBBoxCommand 'H' details2 st).2 = some (snprintf20 (fmtH st.conf)) ∧
    (snprintf20 (fmtG st.conf)).length ≤ 19 ∧
    (snprintf20 (fmtH st.conf)).length ≤ 19 ∧
    (19 < (fmtG st.conf).length →
      snprintf20 (fmtG st.conf) ≠ fmtG st.conf ∧
      (snprintf20 (fmtG st.conf)).data.getLast? ≠ some '\n') ∧
    (19 < (fmtH st.conf).length →
      snprintf20 (fmtH st.conf) ≠ fmtH st.conf ∧
      (snprintf20 (fmtH st.conf)).data.getLast? ≠ some '\n') := by
  refine ⟨rfl, rfl, snprintf20_length _, snprintf20_length _,
    fun h => ⟨snprintf20_ne_of_long h, ?_⟩, fun h => ⟨snprintf20_ne_of_long h, ?_⟩⟩
  · show ((fmtG st.conf).data.take 19).getLast? ≠ some '\n'
    have hd : (fmtG st.conf).length
        = ((decRepr (getInt st.conf "azsteps")).data
            ++ '-' :: (decRepr (getInt st.conf "alsteps")).data).length + 1 := by
      have he : (fmtG st.conf).length = (fmtG st.conf).data.length := rfl
      rw [he, fmtG_data, List.length_append]
      rfl
    rw [fmtG_data]
    exact take_no_newline (fmtG_prefix_no_newline st.conf) (by omega)
  · show ((fmtH st.conf).data.take 19).getLast? ≠ some '\n'
    have hd : (fmtH st.conf).length
        = ((decRepr (getInt st.conf "azsteps")).data
            ++ '\t' :: ((decRepr (getInt st.conf "alsteps")).data ++ ['\t'])).length + 1 := by
      have he : (fmtH st.conf).length = (fmtH st.conf).data.length := rfl
      rw [he, fmtH_data, List.length_append]
      rfl
    rw [fmtH_data]
    exact take_no_newline (fmtH_prefix_no_newline st.conf) (by omega)

/-- Witness for g_h_snprintf_bound with an 18-digit azimuth resolution, long
enough that both the G and the H text overflow the snprintf bound. -/
theorem g_h_snprintf_bound_w :
    19 < (fmtG (setValue initialConf "azsteps" "123456789012345678")).length ∧
    (snprintf20 (fmtG (setValue initialConf "azsteps" "123456789012345678"))
        ≠ fmtG (setValue initialConf "azsteps" "123456789012345678") ∧
     (snprintf20 (fmtG (setValue initialConf "azsteps" "123456789012345678"))).data.getLast?
        ≠ some '\n') ∧
    19 < (fmtH (setValue initialConf "azsteps" "123456789012345678")).length ∧
    (snprintf20 (fmtH (setValue initialConf "azsteps" "123456789012345678"))
        ≠ fmtH (setValue initialConf "azsteps" "123456789012345678") ∧
     (snprintf20 (fmtH (setValue initialConf "azsteps" "123456789012345678"))).data.getLast?
        ≠ some '\n') :=
  ⟨by decide,
   (g_h_snprintf_bound
      { azCount := 0, altCount := 0,
        conf := setValue initialConf "azsteps" "123456789012345678" } "" "").2.2.2.2.1
     (by decide),
   by decide,
   (g_h_snprintf_bound
      { azCount := 0, altCount := 0,
        conf := setValue initialConf "azsteps" "123456789012345678" } "" "").2.2.2.2.2
     (by decide)⟩

end DSC
